import Mathlib

/-!
Verification development for the allocation-and-simulation engine of the
Telangana PDS supply-chain repository.

The embedding translates, over exact rational arithmetic:
  - backend/simulation/allocation_optimizer.py (AllocationOptimizer),
  - backend/simulation/scm_simulator.py (SCMSimulator.run and its data model),
  - the request-validation schema of backend/routes/simulation.py.

External collaborators are abstracted as parameters:
  - scipy.optimize.linprog is modelled as a function from the LP data built by
    the optimizer to an optional solution vector (none = unavailable solver,
    ImportError, or a result with success = False);
  - the numpy random Generator is modelled as a stream of draws consumed in
    call order: period t consumes stream positions 2*N*t .. 2*N*t+N-1 for the
    per-district demand realization (one position per district, the lognormal
    call) and positions 2*N*t+N .. 2*N*t+2*N-1 for the per-district fraud
    shock (the uniform call); the scalar transforms applied by numpy to the
    underlying randomness are parameters of the model (demandDraw, shockDraw).

Numpy float arithmetic is modelled by exact rationals; display rounding of
summary fields (round(..., k) in SCMSimulator.run) is elided.
-/

namespace PDS

/-- np.clip for scalars: min (max x lo) hi. -/
def clipQ (x lo hi : ℚ) : ℚ := min (max x lo) hi

/-- Population mean, as np.mean. -/
def listMean (l : List ℚ) : ℚ := l.sum / (l.length : ℚ)

/-- Population variance, as np.var. -/
def listVar (l : List ℚ) : ℚ := listMean (l.map (fun v => (v - listMean l) ^ 2))

/-- The 1e-9 regulariser used by the optimizer. -/
def eps9 : ℚ := 1 / 1000000000

/-- Constructor parameters of AllocationOptimizer. -/
structure OptParams where
  alpha : ℚ
  beta : ℚ
  gamma : ℚ
  delta : ℚ
  stockout_penalty : ℚ
  inspection_cost : ℚ
  max_ratio : ℚ
  inspection_threshold : ℚ
  cvar_confidence : ℚ
deriving DecidableEq

/-- AllocationOptimizer._policy_proportional: allocate proportional to the
demand forecast; equal split when total demand is nonpositive. -/
def policy_proportional (demand_mean : List ℚ) (supply_total : ℚ) : List ℚ :=
  let total := demand_mean.sum
  if total ≤ 0 then demand_mean.map (fun _ => supply_total / (demand_mean.length : ℚ))
  else demand_mean.map (fun d => d / total * supply_total)

/-- The data of the linear program handed to scipy.optimize.linprog: objective
coefficients for the N allocation variables and the N stockout slacks, the
right-hand sides of the per-district cover rows (the row itself is
-x_i - s_i ≤ b_i in both LP policies), the supply row right-hand side, and
the upper bounds of the allocation variables (slacks are bounded by 0 and
infinity in both LP policies). -/
structure LPData where
  xCoeff : List ℚ
  sCoeff : List ℚ
  shortfallRHS : List ℚ
  supplyRHS : ℚ
  xUpper : List ℚ
deriving DecidableEq

/-- LP data built by AllocationOptimizer._policy_lp (the Optimized policy).
The D_total quantity computed there is dead code (never used) and is omitted. -/
def lpDataOptimized (P : OptParams) (inventory demand_mean fraud_prob transport_cost : List ℚ)
    (supply_total : ℚ) : LPData :=
  let c_max : ℚ := max (transport_cost.foldr max 0) eps9
  { xCoeff := List.zipWith (fun c p => P.alpha * (c / c_max) + P.gamma * p) transport_cost fraud_prob
    sCoeff := List.replicate demand_mean.length P.beta
    shortfallRHS := List.zipWith (fun d i => -(max 0 (d - i))) demand_mean inventory
    supplyRHS := supply_total
    xUpper := demand_mean.map (fun d => P.max_ratio * max d 1) }

/-- z_alpha = 1.645 of _policy_risk_averse. -/
def zAlpha : ℚ := 1645 / 1000

/-- Coefficient of variation per district, np.where(demand_mean > 0, std/mean, 0). -/
def cvList (demand_mean demand_std : List ℚ) : List ℚ :=
  List.zipWith (fun d s => if 0 < d then s / d else 0) demand_mean demand_std

/-- Upside-buffered demand target, demand_mean + z_alpha * demand_std. -/
def bufferedDemand (demand_mean demand_std : List ℚ) : List ℚ :=
  List.zipWith (fun d s => d + zAlpha * s) demand_mean demand_std

/-- LP data built by AllocationOptimizer._policy_risk_averse. -/
def lpDataRiskAverse (P : OptParams)
    (inventory demand_mean demand_std fraud_prob transport_cost : List ℚ)
    (supply_total : ℚ) : LPData :=
  let effective := bufferedDemand demand_mean demand_std
  { xCoeff := List.zipWith (fun c p => P.alpha * c + P.gamma * p) transport_cost fraud_prob
    sCoeff := (cvList demand_mean demand_std).map (fun v => P.beta * (1 + v) * P.stockout_penalty)
    shortfallRHS := List.zipWith (fun e i => -(max 0 (e - i))) effective inventory
    supplyRHS := supply_total
    xUpper := effective.map (fun e => P.max_ratio * max e 1) }

/-- Modelled from the spec: the Risk-Averse LP as the specification describes
it, namely the Optimized LP with exactly two changes: (a) demand_mean replaced
by the upside-buffered target demand_mean + 1.645 * demand_std, and (b) the
stockout weight beta scaled per district by (1 + coefficient of variation),
everything else (including the transport-cost normalisation by c_max)
unchanged. Used only to compare against lpDataRiskAverse. -/
def lpDataRiskAverseSpec (P : OptParams)
    (inventory demand_mean demand_std fraud_prob transport_cost : List ℚ)
    (supply_total : ℚ) : LPData :=
  let base := lpDataOptimized P inventory (bufferedDemand demand_mean demand_std)
    fraud_prob transport_cost supply_total
  { base with sCoeff := (cvList demand_mean demand_std).map (fun v => P.beta * (1 + v)) }

/-- AllocationOptimizer._policy_equity: target coverage ratio and per-district
allocation before the leftover redistribution step (the early-return uniform
split when inventory already covers all demand is part of this
pre-redistribution vector). -/
def shortfallList (inventory demand_mean : List ℚ) : List ℚ :=
  List.zipWith (fun d i => max (d - i) 0) demand_mean inventory

/-- Equity-First allocation before leftover redistribution. -/
def equityPreAlloc (inventory demand_mean : List ℚ) (supply_total : ℚ) : List ℚ :=
  let N := demand_mean.length
  let ts := (shortfallList inventory demand_mean).sum
  if ts ≤ 0 then List.replicate N (supply_total / (N : ℚ))
  else
    let tau := min 1 (supply_total / ts)
    List.zipWith (fun d i => max 0 (tau * d - i)) demand_mean inventory

/-- AllocationOptimizer._policy_equity. -/
def policy_equity (inventory demand_mean : List ℚ) (supply_total : ℚ) : List ℚ :=
  let ts := (shortfallList inventory demand_mean).sum
  let x := equityPreAlloc inventory demand_mean supply_total
  if ts ≤ 0 then x
  else
    let leftover := max 0 (supply_total - x.sum)
    x.map (fun v => v + leftover / (demand_mean.length : ℚ))

/-- Final clipping and renormalisation applied by AllocationOptimizer.allocate
to the allocation returned by the selected policy. -/
def clipRenorm (P : OptParams) (demand_mean : List ℚ) (supply_total : ℚ) (x : List ℚ) : List ℚ :=
  let max_alloc := demand_mean.map (fun d => P.max_ratio * max d 1)
  let xc := List.zipWith (fun xi m => clipQ xi 0 m) x max_alloc
  let total := xc.sum
  if supply_total < total ∧ 0 < total then xc.map (fun v => v * supply_total / total)
  else xc

/-- ROI of inspecting district i, np.where(allocation > 0, p*x/(kappa + c*x + 1e-9), 0). -/
def roiList (P : OptParams) (fraud_prob allocation transport_cost : List ℚ) : List ℚ :=
  List.zipWith
    (fun pa c => if 0 < pa.2 then pa.1 * pa.2 / (P.inspection_cost + c * pa.2 + eps9) else 0)
    (fraud_prob.zip allocation) transport_cost

/-- Insert an index into a list of indices sorted by strictly descending key,
keeping earlier indices first on ties. Models np.argsort(-roi) (descending
order of keys; the numpy tie order among equal keys is implementation-defined
and no theorem below depends on it). -/
def insertDesc (key : ℕ → WithBot ℚ) (i : ℕ) : List ℕ → List ℕ
  | [] => [i]
  | j :: rest => if key i < key j then j :: insertDesc key i rest else i :: j :: rest

/-- Sort indices by descending key. -/
def sortDesc (key : ℕ → WithBot ℚ) : List ℕ → List ℕ
  | [] => []
  | i :: rest => insertDesc key i (sortDesc key rest)

/-- The greedy budgeted selection loop of _decide_inspections: walk the
districts in descending ROI order; stop at the first district whose key is
nonpositive (this includes mandatory districts, whose key was set to bottom,
the model of -inf) or whose inspection would exceed the budget. -/
def greedyInspect (P : OptParams) (budget : ℚ) (key : ℕ → WithBot ℚ) :
    List ℕ → ℚ → List ℕ → List ℕ
  | [], _, y => y
  | i :: rest, used, y =>
    if key i ≤ (0 : WithBot ℚ) then y
    else if budget < used + P.inspection_cost then y
    else greedyInspect P budget key rest (used + P.inspection_cost) (y.set i 1)

/-- AllocationOptimizer._decide_inspections. -/
def decide_inspections (P : OptParams) (fraud_prob allocation transport_cost : List ℚ)
    (budget : ℚ) : List ℕ :=
  let N := fraud_prob.length
  let mandatory := fraud_prob.map (fun p => decide (P.inspection_threshold < p))
  let y0 := mandatory.map (fun m => if m then 1 else 0)
  let used0 := ((mandatory.count true : ℕ) : ℚ) * P.inspection_cost
  let roi := roiList P fraud_prob allocation transport_cost
  let key : ℕ → WithBot ℚ := fun i =>
    if mandatory.getD i false then (⊥ : WithBot ℚ) else ((roi.getD i 0 : ℚ) : WithBot ℚ)
  greedyInspect P budget key (sortDesc key (List.range N)) used0 y0

/-- AllocationOptimizer.allocate. The solver argument models
scipy.optimize.linprog on the constructed LP data: some xs is a successful
solve with variable vector xs (of which the first N entries are the
allocations), none is an unavailable solver (ImportError) or a failed or
infeasible solve; in either none case the code falls back to the Proportional
policy without raising (the embedding is a total function). The string
dispatch falls back to Proportional for unrecognized policy names. -/
def allocate (P : OptParams) (solver : LPData → Option (List ℚ))
    (inventory demand_mean demand_std fraud_prob transport_cost : List ℚ)
    (supply_total budget : ℚ) (policy : String) : List ℚ × List ℕ :=
  let N := demand_mean.length
  let x :=
    if policy = "proportional" then policy_proportional demand_mean supply_total
    else if policy = "optimized" then
      match solver (lpDataOptimized P inventory demand_mean fraud_prob transport_cost
          supply_total) with
      | some xs => xs.take N
      | none => policy_proportional demand_mean supply_total
    else if policy = "equity_first" then policy_equity inventory demand_mean supply_total
    else if policy = "risk_averse" then
      match solver (lpDataRiskAverse P inventory demand_mean demand_std fraud_prob
          transport_cost supply_total) with
      | some xs => xs.take N
      | none => policy_proportional demand_mean supply_total
    else policy_proportional demand_mean supply_total
  let xClipped := clipRenorm P demand_mean supply_total x
  let y := decide_inspections P fraud_prob xClipped transport_cost budget
  (xClipped, y)

/-- SimulationConfig (scm_simulator.py). n_periods is a natural number; all
float fields are exact rationals. -/
structure SimConfig where
  n_periods : ℕ
  discount_factor : ℚ
  alpha : ℚ
  beta : ℚ
  gamma : ℚ
  delta : ℚ
  inspection_effectiveness : ℚ
  fraud_shock_scale : ℚ
  supply_fraction : ℚ
  inspection_cost : ℚ
  budget_per_period : ℚ
  stockout_penalty : ℚ
  transport_cost_base : ℚ
  min_service_level : ℚ
  max_allocation_ratio : ℚ
  inspection_threshold : ℚ
  cvar_confidence : ℚ
  policy : String
  demand_cv : ℚ
  seed : ℤ
deriving DecidableEq

/-- The AllocationOptimizer built in SCMSimulator.__init__ from the config. -/
def optimizerOf (cfg : SimConfig) : OptParams :=
  { alpha := cfg.alpha
    beta := cfg.beta
    gamma := cfg.gamma
    delta := cfg.delta
    stockout_penalty := cfg.stockout_penalty
    inspection_cost := cfg.inspection_cost
    max_ratio := cfg.max_allocation_ratio
    inspection_threshold := cfg.inspection_threshold
    cvar_confidence := cfg.cvar_confidence }

/-- The deterministic input arrays produced by DistrictDataGenerator.generate
(an external collaborator with its own random generator, consumed before the
simulation loop starts): initial state vectors, the static transport costs,
the [N, T] demand matrices accessed one period-column at a time, and the
supply schedule. -/
structure SimData where
  initial_inventory : List ℚ
  initial_fraud_prob : List ℚ
  transport_cost : List ℚ
  demand_mean : ℕ → List ℚ
  demand_std : ℕ → List ℚ
  supply_schedule : ℕ → ℚ

/-- One PeriodResult record of scm_simulator.py (the JSON-facing dataclass).
The agent_actions dict, a logging payload of strings and aggregates of the
same state, is elided. -/
structure PeriodResult where
  period : ℕ
  inventory_start : List ℚ
  inventory_end : List ℚ
  demand_mean : List ℚ
  demand_realized : List ℚ
  fraud_prob_start : List ℚ
  fraud_prob_end : List ℚ
  service_ratio : List ℚ
  allocation : List ℚ
  inspections : List ℕ
  leakage : List ℚ
  cost_transport : ℚ
  cost_stockout : ℚ
  cost_leakage : ℚ
  cost_equity : ℚ
  cost_total : ℚ
  n_stockouts : ℕ
  n_inspections : ℕ
  total_demand_kg : ℚ
  total_supply_kg : ℚ
  supply_util_pct : ℚ
  avg_service_ratio : ℚ
  avg_fraud_prob : ℚ
deriving DecidableEq

/-- The realized per-district demand of period t: the lognormal call consumes
one stream position per district, positions 2*N*t .. 2*N*t+N-1, strictly
before the fraud-shock call of the same period. demandDraw is the scalar
transform numpy applies (built in the source from the mean and the coefficient
of variation of the district and the underlying draw). -/
def demandRealized (demandDraw : ℚ → ℚ → ℚ → ℚ) (s : ℕ → ℚ) (N t : ℕ)
    (D_hat D_std : List ℚ) : List ℚ :=
  List.zipWith (fun ds k => demandDraw ds.1 ds.2 (s (2 * N * t + k)))
    (D_hat.zip D_std) (List.range N)

/-- The per-district fraud shock of period t: the uniform(0, scale) call
consumes stream positions 2*N*t+N .. 2*N*t+2*N-1, strictly after the demand
call of the same period. -/
def shockVec (shockDraw : ℚ → ℚ → ℚ) (s : ℕ → ℚ) (N t : ℕ) (scale : ℚ) : List ℚ :=
  (List.range N).map (fun k => shockDraw scale (s (2 * N * t + N + k)))

/-- One iteration of the period loop of SCMSimulator.run: allocation and
inspection decision, demand realization, leakage, effective supply, stockout,
service ratio, inventory and fraud-probability updates, cost components, and
the recorded PeriodResult. Returns the record and the next (inventory, fraud)
state. -/
def simStep (cfg : SimConfig) (solver : LPData → Option (List ℚ))
    (demandDraw : ℚ → ℚ → ℚ → ℚ) (shockDraw : ℚ → ℚ → ℚ) (data : SimData)
    (s : ℕ → ℚ) (t : ℕ) (I p : List ℚ) : PeriodResult × List ℚ × List ℚ :=
  let N := data.initial_inventory.length
  let D_hat := data.demand_mean t
  let D_std := data.demand_std t
  let S_t := data.supply_schedule t
  let xy := allocate (optimizerOf cfg) solver I D_hat D_std p data.transport_cost S_t
    cfg.budget_per_period cfg.policy
  let x := xy.1
  let y := xy.2
  let D_real := demandRealized demandDraw s N t D_hat D_std
  let L := List.zipWith (fun a b => a * b) p x
  let eff := List.zipWith (fun a l => max (a - l) 0) (List.zipWith (fun a b => a + b) I x) L
  let stockout := List.zipWith (fun d e => max (d - e) 0) D_real eff
  let service_ratio := List.zipWith (fun d e => clipQ (if 0 < d then e / d else 1) 0 1) D_real eff
  let I_new := List.zipWith (fun e d => max (e - d) 0) eff D_real
  let shock := shockVec shockDraw s N t cfg.fraud_shock_scale
  let p_new := (List.zipWith (fun a b => a + b)
      (List.zipWith (fun pi yi => pi * (1 - cfg.inspection_effectiveness * (yi : ℚ))) p y)
      shock).map (fun v => clipQ v (1 / 100) (99 / 100))
  let C_trans := (List.zipWith (fun a b => a * b) data.transport_cost x).sum
  let C_stock := (stockout.map (fun v => cfg.stockout_penalty * v)).sum
  let C_leak := (List.zipWith (fun a b => a * b) p x).sum
  let C_ineq := listVar service_ratio * 1000000
  let C_total := cfg.alpha * C_trans + cfg.beta * C_stock + cfg.gamma * C_leak +
    cfg.delta * C_ineq
  ({ period := t
     inventory_start := I
     inventory_end := I_new
     demand_mean := D_hat
     demand_realized := D_real
     fraud_prob_start := p
     fraud_prob_end := p_new
     service_ratio := service_ratio
     allocation := x
     inspections := y
     leakage := L
     cost_transport := C_trans
     cost_stockout := C_stock
     cost_leakage := C_leak
     cost_equity := C_ineq
     cost_total := C_total
     n_stockouts := stockout.countP (fun v => decide (0 < v))
     n_inspections := y.sum
     total_demand_kg := D_real.sum
     total_supply_kg := x.sum
     supply_util_pct := 100 * x.sum / max S_t 1
     avg_service_ratio := listMean service_ratio
     avg_fraud_prob := listMean p },
   I_new, p_new)

/-- The period loop, from period t with the given fuel (remaining periods)
and state. -/
def runFrom (cfg : SimConfig) (solver : LPData → Option (List ℚ))
    (demandDraw : ℚ → ℚ → ℚ → ℚ) (shockDraw : ℚ → ℚ → ℚ) (data : SimData)
    (s : ℕ → ℚ) : ℕ → ℕ → List ℚ → List ℚ → List PeriodResult
  | 0, _, _, _ => []
  | Nat.succ fuel, t, I, p =>
    let st := simStep cfg solver demandDraw shockDraw data s t I p
    st.1 :: runFrom cfg solver demandDraw shockDraw data s fuel (t + 1) st.2.1 st.2.2

/-- SimulationResult summary fields produced by SCMSimulator.run (config echo,
district metadata, runtime_seconds wall clock, and the chart-series copies of
per-period fields are elided; display rounding is elided). -/
structure SimResult where
  n_periods : ℕ
  periods : List PeriodResult
  total_discounted_cost : ℚ
  avg_service_level : ℚ
  avg_fraud_prob : ℚ
  total_leakage_kg : ℚ
  total_stockout_kg : ℚ
  cvar_cost : ℚ
  cost_series : List ℚ
deriving DecidableEq

/-- SCMSimulator.run: execute all periods from the initial data state, then
aggregate. The run-level total stockout is computed from the per-period
aggregates total_demand_kg and total_supply_kg, exactly as in the source. -/
def simRun (cfg : SimConfig) (solver : LPData → Option (List ℚ))
    (demandDraw : ℚ → ℚ → ℚ → ℚ) (shockDraw : ℚ → ℚ → ℚ) (data : SimData)
    (s : ℕ → ℚ) : SimResult :=
  let T := cfg.n_periods
  let periods := runFrom cfg solver demandDraw shockDraw data s T 0
    data.initial_inventory data.initial_fraud_prob
  let period_costs := periods.map (fun pr => pr.cost_total)
  let discounted := ((List.range T).map
    (fun t => cfg.discount_factor ^ t * period_costs.getD t 0)).sum
  let sorted_costs := List.insertionSort (fun a b => a ≤ b) period_costs
  let cvar_idx := (⌈cfg.cvar_confidence * (T : ℚ)⌉).toNat
  { n_periods := T
    periods := periods
    total_discounted_cost := discounted
    avg_service_level := listMean (periods.map (fun pr => pr.avg_service_ratio))
    avg_fraud_prob := listMean (periods.map (fun pr => pr.avg_fraud_prob))
    total_leakage_kg := (periods.map (fun pr => pr.leakage.sum)).sum
    total_stockout_kg := (periods.map
      (fun pr => max 0 (pr.total_demand_kg - pr.total_supply_kg))).sum
    cvar_cost := if cvar_idx < T then listMean (sorted_costs.drop cvar_idx)
      else sorted_costs.getLastD 0
    cost_series := period_costs }

/-- The request schema of routes/simulation.py (SimulationRequest). -/
structure SimulationRequest where
  n_periods : ℤ
  discount_factor : ℚ
  alpha : ℚ
  beta : ℚ
  gamma : ℚ
  delta : ℚ
  inspection_effectiveness : ℚ
  fraud_shock_scale : ℚ
  supply_fraction : ℚ
  inspection_cost : ℚ
  budget_per_period : ℚ
  stockout_penalty : ℚ
  min_service_level : ℚ
  max_allocation_ratio : ℚ
  inspection_threshold : ℚ
  cvar_confidence : ℚ
  policy : String
  seed : ℤ
deriving DecidableEq

/-- The validation pydantic performs on SimulationRequest before the handler
runs: exactly the ge/le bounds declared on the Field annotations of
routes/simulation.py. The policy and seed fields carry no constraint there. -/
def validateRequest (r : SimulationRequest) : Bool :=
  decide (6 ≤ r.n_periods) && decide (r.n_periods ≤ 60) &&
  decide (1 / 2 ≤ r.discount_factor) && decide (r.discount_factor ≤ 1) &&
  decide (0 ≤ r.alpha) && decide (r.alpha ≤ 1) &&
  decide (0 ≤ r.beta) && decide (r.beta ≤ 1) &&
  decide (0 ≤ r.gamma) && decide (r.gamma ≤ 1) &&
  decide (0 ≤ r.delta) && decide (r.delta ≤ 1) &&
  decide (0 ≤ r.inspection_effectiveness) && decide (r.inspection_effectiveness ≤ 1) &&
  decide (0 ≤ r.fraud_shock_scale) && decide (r.fraud_shock_scale ≤ 1 / 5) &&
  decide (1 / 2 ≤ r.supply_fraction) && decide (r.supply_fraction ≤ 1) &&
  decide (0 ≤ r.inspection_cost) &&
  decide (0 ≤ r.budget_per_period) &&
  decide (0 ≤ r.stockout_penalty) &&
  decide (0 ≤ r.min_service_level) && decide (r.min_service_level ≤ 1) &&
  decide (1 ≤ r.max_allocation_ratio) && decide (r.max_allocation_ratio ≤ 5) &&
  decide (0 ≤ r.inspection_threshold) && decide (r.inspection_threshold ≤ 1) &&
  decide (1 / 2 ≤ r.cvar_confidence) && decide (r.cvar_confidence ≤ 999 / 1000)

/-- The numeric ranges the schema checks, as a proposition. -/
def numericRangesOK (r : SimulationRequest) : Prop :=
  (6 ≤ r.n_periods ∧ r.n_periods ≤ 60) ∧
  (1 / 2 ≤ r.discount_factor ∧ r.discount_factor ≤ 1) ∧
  (0 ≤ r.alpha ∧ r.alpha ≤ 1) ∧
  (0 ≤ r.beta ∧ r.beta ≤ 1) ∧
  (0 ≤ r.gamma ∧ r.gamma ≤ 1) ∧
  (0 ≤ r.delta ∧ r.delta ≤ 1) ∧
  (0 ≤ r.inspection_effectiveness ∧ r.inspection_effectiveness ≤ 1) ∧
  (0 ≤ r.fraud_shock_scale ∧ r.fraud_shock_scale ≤ 1 / 5) ∧
  (1 / 2 ≤ r.supply_fraction ∧ r.supply_fraction ≤ 1) ∧
  0 ≤ r.inspection_cost ∧
  0 ≤ r.budget_per_period ∧
  0 ≤ r.stockout_penalty ∧
  (0 ≤ r.min_service_level ∧ r.min_service_level ≤ 1) ∧
  (1 ≤ r.max_allocation_ratio ∧ r.max_allocation_ratio ≤ 5) ∧
  (0 ≤ r.inspection_threshold ∧ r.inspection_threshold ≤ 1) ∧
  (1 / 2 ≤ r.cvar_confidence ∧ r.cvar_confidence ≤ 999 / 1000)

/-- The policy names the specification declares as the configuration range. -/
def allowedPolicies : List String :=
  ["proportional", "optimized", "equity_first", "risk_averse"]

/-- The per-district stockout of the period transition, recomputed from the
recorded fields of a PeriodResult: effective supply is
max(inventory_start + allocation - leakage, 0) and the stockout is
max(demand_realized - effective_supply, 0), exactly the quantities the period
loop computes before recording. -/
def periodStockouts (pr : PeriodResult) : List ℚ :=
  List.zipWith (fun d e => max (d - e) 0) pr.demand_realized
    (List.zipWith (fun a l => max (a - l) 0)
      (List.zipWith (fun a b => a + b) pr.inventory_start pr.allocation) pr.leakage)

/-- The per-period invariant the specification asserts: allocation bounds,
supply respected, fraud probability clamped, inventory nonnegative, service
ratio in the unit interval. -/
def periodInv (cfg : SimConfig) (data : SimData) (pr : PeriodResult) : Prop :=
  (∀ i, i < pr.allocation.length → i < pr.demand_mean.length →
      0 ≤ pr.allocation.getD i 0 ∧
        pr.allocation.getD i 0 ≤ cfg.max_allocation_ratio * max (pr.demand_mean.getD i 0) 1)
  ∧ pr.allocation.sum ≤ data.supply_schedule pr.period
  ∧ (∀ i, i < pr.fraud_prob_end.length →
      1 / 100 ≤ pr.fraud_prob_end.getD i 0 ∧ pr.fraud_prob_end.getD i 0 ≤ 99 / 100)
  ∧ (∀ i, i < pr.inventory_end.length → 0 ≤ pr.inventory_end.getD i 0)
  ∧ (∀ i, i < pr.service_ratio.length →
      0 ≤ pr.service_ratio.getD i 0 ∧ pr.service_ratio.getD i 0 ≤ 1)

/-! Concrete fixtures used by witnesses and counterexamples: a one-district,
one-period configuration with the optimizer defaults, a data set with
inventory 5, demand 10, zero supply, zero initial fraud, an unavailable
solver, draw transforms that realize the mean plus the raw draw, and the zero
stream. -/

/-- Optimizer parameters at the source defaults. -/
def wP : OptParams := ⟨1 / 4, 7 / 20, 1 / 4, 3 / 20, 50, 5000, 2, 13 / 20, 19 / 20⟩

/-- One-period proportional-policy configuration at the source defaults. -/
def wCfg : SimConfig :=
  ⟨1, 19 / 20, 1 / 4, 7 / 20, 1 / 4, 3 / 20, 2 / 5, 3 / 100, 91 / 100, 5000, 50000000,
    50, 2, 7 / 10, 2, 13 / 20, 19 / 20, "proportional", 3 / 20, 42⟩

/-- One-district data: inventory 5, fraud 0, transport 1, demand 10, zero
demand noise, zero supply. -/
def wData : SimData := ⟨[5], [0], [1], fun _ => [10], fun _ => [0], fun _ => 0⟩

/-- A concrete demand transform: mean plus the raw draw. -/
def wDraw : ℚ → ℚ → ℚ → ℚ := fun m _ z => m + z

/-- A concrete shock transform: scale times the raw draw. -/
def wShock : ℚ → ℚ → ℚ := fun sc z => sc * z

/-- The unavailable solver. -/
def wSolver : LPData → Option (List ℚ) := fun _ => none

/-- The zero stream. -/
def wS : ℕ → ℚ := fun _ => 0

/-- A stream that agrees with the zero stream on the first two draws only. -/
def wS2 : ℕ → ℚ := fun k => if k < 2 then 0 else 1

/-- The period record the fixture run produces. -/
def wPr : PeriodResult :=
  { period := 0
    inventory_start := [5]
    inventory_end := [0]
    demand_mean := [10]
    demand_realized := [10]
    fraud_prob_start := [0]
    fraud_prob_end := [1 / 100]
    service_ratio := [1 / 2]
    allocation := [0]
    inspections := [0]
    leakage := [0]
    cost_transport := 0
    cost_stockout := 250
    cost_leakage := 0
    cost_equity := 0
    cost_total := 175 / 2
    n_stockouts := 1
    n_inspections := 0
    total_demand_kg := 10
    total_supply_kg := 0
    supply_util_pct := 0
    avg_service_ratio := 1 / 2
    avg_fraud_prob := 0 }

/-- A request whose numeric fields are the schema defaults and whose policy
string is not a recognized policy. -/
def badRequest : SimulationRequest :=
  ⟨24, 19 / 20, 1 / 4, 7 / 20, 1 / 4, 3 / 20, 2 / 5, 3 / 100, 91 / 100, 5000, 50000000,
    50, 7 / 10, 2, 13 / 20, 19 / 20, "banana", 42⟩

/-! Helper lemmas about lists and clipping. -/

lemma zipWith_congr_right {α β γ : Type _} (f g : α → β → γ) :
    ∀ (l₁ : List α) (l₂ : List β), (∀ a b, b ∈ l₂ → f a b = g a b) →
      List.zipWith f l₁ l₂ = List.zipWith g l₁ l₂ := by
  intro l₁
  induction l₁ with
  | nil => intro l₂ _; rfl
  | cons a t ih =>
    intro l₂ h
    cases l₂ with
    | nil => rfl
    | cons b bs =>
      simp only [List.zipWith]
      rw [h a b (List.mem_cons_self b bs),
        ih bs (fun a c hc => h a c (List.mem_cons_of_mem b hc))]

lemma mem_zipWith_prop {α β γ : Type _} {f : α → β → γ} (Q : γ → Prop) :
    ∀ (l₁ : List α) (l₂ : List β), (∀ a b, b ∈ l₂ → Q (f a b)) →
      ∀ c ∈ List.zipWith f l₁ l₂, Q c := by
  intro l₁
  induction l₁ with
  | nil => intro l₂ _ c hc; simp at hc
  | cons a t ih =>
    intro l₂ h c hc
    cases l₂ with
    | nil => simp at hc
    | cons b bs =>
      simp only [List.zipWith, List.mem_cons] at hc
      rcases hc with hc | hc
      · exact hc ▸ h a b (List.mem_cons_self b bs)
      · exact ih bs (fun a d hd => h a d (List.mem_cons_of_mem b hd)) c hc

lemma getD_zipWith_of_lt {f : ℚ → ℚ → ℚ} :
    ∀ (l₁ l₂ : List ℚ) (n : ℕ), n < l₁.length → n < l₂.length →
      ∀ (d d₁ d₂ : ℚ), (List.zipWith f l₁ l₂).getD n d = f (l₁.getD n d₁) (l₂.getD n d₂) := by
  intro l₁
  induction l₁ with
  | nil => intro l₂ n h₁; simp at h₁
  | cons a t ih =>
    intro l₂ n h₁ h₂ d d₁ d₂
    cases l₂ with
    | nil => simp at h₂
    | cons b bs =>
      cases n with
      | zero => rfl
      | succ m =>
        simp only [List.zipWith, List.getD_cons_succ]
        exact ih bs m (by simpa using h₁) (by simpa using h₂) d d₁ d₂

lemma getD_map_of_lt {α β : Type _} [Inhabited α] (f : α → β) :
    ∀ (l : List α) (n : ℕ), n < l.length →
      ∀ (d : β) (d₁ : α), (l.map f).getD n d = f (l.getD n d₁) := by
  intro l
  induction l with
  | nil => intro n h; simp at h
  | cons a t ih =>
    intro n h d d₁
    cases n with
    | zero => rfl
    | succ m =>
      simp only [List.map, List.getD_cons_succ]
      exact ih m (by simpa using h) d d₁

lemma getD_replicate_of_lt {α : Type _} (v : α) :
    ∀ (N n : ℕ), n < N → ∀ d : α, (List.replicate N v).getD n d = v := by
  intro N
  induction N with
  | zero => intro n h; simp at h
  | succ m ih =>
    intro n h d
    cases n with
    | zero => rfl
    | succ k =>
      simp only [List.replicate, List.getD_cons_succ]
      exact ih k (by simpa using h) d

lemma sum_map_mul_div (l : List ℚ) (a b : ℚ) :
    (l.map (fun v => v * a / b)).sum = l.sum * a / b := by
  induction l with
  | nil => simp
  | cons x t ih => simp only [List.map, List.sum_cons, ih]; ring

lemma sum_map_div_mul (l : List ℚ) (a b : ℚ) :
    (l.map (fun v => v / b * a)).sum = l.sum / b * a := by
  induction l with
  | nil => simp
  | cons x t ih => simp only [List.map, List.sum_cons, ih]; ring

lemma all_zero_of_sum_nonpos :
    ∀ l : List ℚ, (∀ v ∈ l, 0 ≤ v) → l.sum ≤ 0 → ∀ v ∈ l, v = 0 := by
  intro l
  induction l with
  | nil => intro _ _ v hv; simp at hv
  | cons x t ih =>
    intro hpos hsum v hv
    have hx : 0 ≤ x := hpos x (List.mem_cons_self x t)
    have ht : 0 ≤ t.sum := List.sum_nonneg (fun a ha => hpos a (List.mem_cons_of_mem x ha))
    simp only [List.sum_cons] at hsum
    rcases List.mem_cons.mp hv with rfl | hv
    · linarith
    · exact ih (fun a ha => hpos a (List.mem_cons_of_mem x ha)) (by linarith) v hv

lemma clipQ_mem (v lo hi : ℚ) (h : lo ≤ hi) : lo ≤ clipQ v lo hi ∧ clipQ v lo hi ≤ hi := by
  unfold clipQ
  exact ⟨le_min (le_max_right v lo) h, min_le_right _ _⟩

/-! Claim theorems. -/

/-- Claim C9: the Proportional policy, when the zero-total-demand branch is
not taken, allocates in exact proportion to mean demand, consumes exactly the
supply, and yields [50, 50, 50] in Scenario A. -/
theorem C9_proportional_ratios (dm : List ℚ) (S : ℚ) (i j : ℕ)
    (hi : i < dm.length) (hj : j < dm.length) (htotal : 0 < dm.sum)
    (hdj : 0 < dm.getD j 0) (hS : S ≠ 0) :
    (policy_proportional dm S).getD i 0 / (policy_proportional dm S).getD j 0
      = dm.getD i 0 / dm.getD j 0
    ∧ (policy_proportional dm S).sum = S
    ∧ policy_proportional [100, 100, 100] 150 = [50, 50, 50] := by
  have hT : dm.sum ≠ 0 := ne_of_gt htotal
  have hne : ¬ dm.sum ≤ 0 := not_le.mpr htotal
  refine ⟨?_, ?_, by norm_num [policy_proportional]⟩
  · unfold policy_proportional
    simp only [hne, if_false]
    rw [getD_map_of_lt (fun d => d / dm.sum * S) dm i hi 0 0,
      getD_map_of_lt (fun d => d / dm.sum * S) dm j hj 0 0]
    have hdj2 : dm.getD j 0 ≠ 0 := ne_of_gt hdj
    field_simp
    rw [mul_div_mul_right _ _ hS]
  · unfold policy_proportional
    simp only [hne, if_false]
    rw [sum_map_div_mul dm S dm.sum, div_self hT, one_mul]

/-- Claim C8: whenever supply covers the total shortfall, the Equity-First
allocation before leftover redistribution brings every district to at least
its mean demand. -/
theorem C8_equity_coverage (inventory dm : List ℚ) (S : ℚ)
    (h : (shortfallList inventory dm).sum ≤ S) :
    ∀ i, i < (equityPreAlloc inventory dm S).length → i < inventory.length →
      i < dm.length →
      dm.getD i 0 ≤ inventory.getD i 0 + (equityPreAlloc inventory dm S).getD i 0 := by
  intro i hx hinv hd
  have hsh_nonneg : ∀ v ∈ shortfallList inventory dm, 0 ≤ v := by
    intro v hv
    exact mem_zipWith_prop (fun c => 0 ≤ c) dm inventory
      (fun a b _ => le_max_right _ _) v hv
  have hS0 : 0 ≤ S := le_trans (List.sum_nonneg hsh_nonneg) h
  by_cases hts : (shortfallList inventory dm).sum ≤ 0
  · -- inventory already covers every district; the uniform split is nonnegative
    have hzero : ∀ v ∈ shortfallList inventory dm, v = 0 :=
      all_zero_of_sum_nonpos _ hsh_nonneg hts
    have hlen : i < (shortfallList inventory dm).length := by
      unfold shortfallList
      simp only [List.length_zipWith]
      omega
    have hel : (shortfallList inventory dm).getD i 0 = max (dm.getD i 0 - inventory.getD i 0) 0 := by
      unfold shortfallList
      exact getD_zipWith_of_lt dm inventory i hd hinv 0 0 0
    have : max (dm.getD i 0 - inventory.getD i 0) 0 = 0 := by
      rw [← hel, List.getD_eq_getElem _ 0 hlen]
      exact hzero _ (List.getElem_mem hlen)
    have hcov : dm.getD i 0 ≤ inventory.getD i 0 := by
      have := max_eq_right_iff.mp this
      linarith
    have hxval : (equityPreAlloc inventory dm S).getD i 0 = S / (dm.length : ℚ) := by
      unfold equityPreAlloc
      simp only [hts, if_true]
      have hxlen : i < (equityPreAlloc inventory dm S).length := hx
      unfold equityPreAlloc at hxlen
      simp only [hts, if_true, List.length_replicate] at hxlen
      exact getD_replicate_of_lt _ _ _ hxlen _
    rw [hxval]
    have : 0 ≤ S / (dm.length : ℚ) :=
      div_nonneg hS0 (by positivity)
    linarith
  · -- strictly positive shortfall: tau = 1
    have hts' : 0 < (shortfallList inventory dm).sum := lt_of_not_le hts
    have htau : min 1 (S / (shortfallList inventory dm).sum) = 1 :=
      min_eq_left ((one_le_div hts').mpr h)
    have hxval : (equityPreAlloc inventory dm S).getD i 0
        = max 0 (min 1 (S / (shortfallList inventory dm).sum) * dm.getD i 0 - inventory.getD i 0) := by
      unfold equityPreAlloc
      simp only [hts, if_false]
      exact getD_zipWith_of_lt dm inventory i hd hinv 0 0 0
    rw [hxval, htau, one_mul]
    have := le_max_right 0 (dm.getD i 0 - inventory.getD i 0)
    have h2 : dm.getD i 0 - inventory.getD i 0 ≤ max 0 (dm.getD i 0 - inventory.getD i 0) :=
      le_max_right _ _
    linarith

/-- Claim C3: when the linear-program solver is unavailable or reports
failure (modelled by the solver returning none), allocate under the Optimized
or Risk-Averse policy returns exactly what it returns under the Proportional
policy; the embedding is a total function, so no exception reaches the
caller. -/
theorem C3_solver_fallback (P : OptParams) (solver : LPData → Option (List ℚ))
    (inventory dm ds fp tc : List ℚ) (S B : ℚ) (policy : String)
    (hsolver : ∀ d, solver d = none)
    (hpolicy : policy = "optimized" ∨ policy = "risk_averse") :
    allocate P solver inventory dm ds fp tc S B policy
      = allocate P solver inventory dm ds fp tc S B "proportional" := by
  rcases hpolicy with h | h <;> subst h <;> simp [allocate, hsolver]

/-- Claim C4, counterexample: at a concrete input the Risk-Averse LP data is
not the Optimized LP data with only the two changes the claim allows (the
transport coefficients are not normalised by c_max, and the stockout weights
carry an extra stockout_penalty factor). -/
theorem C4_counterexample :
    lpDataRiskAverse ⟨1, 1, 0, 0, 50, 5000, 2, 13 / 20, 19 / 20⟩
        [0, 0] [10, 10] [0, 0] [0, 0] [2, 4] 100
      ≠ lpDataRiskAverseSpec ⟨1, 1, 0, 0, 50, 5000, 2, 13 / 20, 19 / 20⟩
        [0, 0] [10, 10] [0, 0] [0, 0] [2, 4] 100 := by
  intro h
  have hx := congrArg LPData.xCoeff h
  norm_num [lpDataRiskAverse, lpDataRiskAverseSpec, lpDataOptimized, cvList,
    bufferedDemand, eps9, zAlpha, max_def] at hx

/-- Claim C4, amended: the Risk-Averse LP keeps the constraint structure,
supply bound, cover rows and variable bounds of the Optimized LP evaluated at
the buffered demand demand_mean + 1.645 demand_std, but its objective differs
from the claim in two ways: the transport term is alpha times the raw
transport cost (no c_max normalisation), and the stockout weight is
beta of (1 + cv) additionally multiplied by stockout_penalty. -/
theorem C4_amended (P : OptParams) (inventory dm ds fp tc : List ℚ) (S : ℚ) :
    lpDataRiskAverse P inventory dm ds fp tc S =
      { xCoeff := List.zipWith (fun c p => P.alpha * c + P.gamma * p) tc fp
        sCoeff := (cvList dm ds).map (fun v => P.beta * (1 + v) * P.stockout_penalty)
        shortfallRHS :=
          (lpDataOptimized P inventory (bufferedDemand dm ds) fp tc S).shortfallRHS
        supplyRHS := (lpDataOptimized P inventory dm fp tc S).supplyRHS
        xUpper := (lpDataOptimized P inventory (bufferedDemand dm ds) fp tc S).xUpper } := rfl

lemma getD_set_one_head (y : List ℕ) (i : ℕ) (hy : y.getD 0 0 = 1) :
    (y.set i 1).getD 0 0 = 1 := by
  cases y with
  | nil => simp at hy
  | cons a t =>
    cases i with
    | zero => rfl
    | succ k => simpa using hy

lemma greedy_keeps_head_one (P : OptParams) (budget : ℚ) (key : ℕ → WithBot ℚ) :
    ∀ (order : List ℕ) (used : ℚ) (y : List ℕ), y.getD 0 0 = 1 →
      (greedyInspect P budget key order used y).getD 0 0 = 1 := by
  intro order
  induction order with
  | nil => intro used y hy; simpa [greedyInspect] using hy
  | cons i rest ih =>
    intro used y hy
    simp only [greedyInspect]
    split
    · exact hy
    · split
      · exact hy
      · exact ih _ _ (getD_set_one_head y i hy)

lemma greedy_budget_stop (P : OptParams) (budget : ℚ) (key : ℕ → WithBot ℚ)
    (order : List ℕ) (used : ℚ) (y : List ℕ)
    (h : budget < used + P.inspection_cost) :
    greedyInspect P budget key order used y = y := by
  cases order with
  | nil => rfl
  | cons i rest =>
    simp only [greedyInspect, if_pos h, ite_self]

/-- Claim C5, counterexample: with fraud probabilities [0.9, 0.1, 0.1],
threshold 0.65, positive allocations and a budget of four inspections, the
greedy stage also inspects districts 1 and 2, so the decision is not
[1, 0, 0] for every budget. -/
theorem C5_counterexample :
    decide_inspections ⟨1 / 4, 7 / 20, 1 / 4, 3 / 20, 50, 5000, 2, 13 / 20, 19 / 20⟩
      [9 / 10, 1 / 10, 1 / 10] [1, 1, 1] [1, 1, 1] 20000 ≠ [1, 0, 0] := by
  have h : decide_inspections ⟨1 / 4, 7 / 20, 1 / 4, 3 / 20, 50, 5000, 2, 13 / 20, 19 / 20⟩
      [9 / 10, 1 / 10, 1 / 10] [1, 1, 1] [1, 1, 1] 20000 = [1, 1, 1] := by
    norm_num [decide_inspections, roiList, greedyInspect, sortDesc, insertDesc, eps9,
      List.range_succ, WithBot.coe_lt_coe, WithBot.bot_lt_coe]
  rw [h]
  decide

/-- Claim C5, amended: with fraud probabilities [0.9, 0.1, 0.1] and threshold
0.65, district 0 is inspected unconditionally for every budget, allocation and
transport vector; the full decision is [1, 0, 0] whenever the budget cannot
fund a second inspection (budget below twice the inspection cost), but with a
larger budget the greedy ROI stage may add districts 1 and 2. -/
theorem C5_amended (P : OptParams) (alloc tc : List ℚ) (budget : ℚ)
    (hthr : P.inspection_threshold = 13 / 20) :
    (decide_inspections P [9 / 10, 1 / 10, 1 / 10] alloc tc budget).getD 0 0 = 1
    ∧ (budget < 2 * P.inspection_cost →
        decide_inspections P [9 / 10, 1 / 10, 1 / 10] alloc tc budget = [1, 0, 0]) := by
  have hmap : (([9 / 10, 1 / 10, 1 / 10] : List ℚ).map
      (fun p => decide (P.inspection_threshold < p))) = [true, false, false] := by
    rw [hthr]; norm_num
  have hy0 : (([true, false, false] : List Bool).map
      (fun m => if m then (1 : ℕ) else 0)) = [1, 0, 0] := by norm_num
  have hcnt : (((([true, false, false] : List Bool).count true : ℕ)) : ℚ) = 1 := by
    norm_num
  constructor
  · simp only [decide_inspections, hmap, hy0]
    exact greedy_keeps_head_one _ _ _ _ _ _ rfl
  · intro hb
    simp only [decide_inspections, hmap, hy0, hcnt]
    rw [greedy_budget_stop]
    linarith

/-- Claim C6, counterexample: a request whose policy string is outside the
declared policy set passes the schema validation, so it is not rejected
before the run starts. -/
theorem C6_counterexample :
    validateRequest badRequest = true ∧ badRequest.policy ∉ allowedPolicies := by
  constructor
  · norm_num [validateRequest, badRequest]
  · decide

/-- Claim C6, amended: the schema validates exactly the numeric ranges (the
policy string and the seed are not constrained), and a run with an
unrecognized policy string proceeds with the Proportional fallback instead of
being rejected. -/
theorem C6_amended :
    (∀ r : SimulationRequest, validateRequest r = true ↔ numericRangesOK r)
    ∧ (∀ (P : OptParams) (solver : LPData → Option (List ℚ))
        (inventory dm ds fp tc : List ℚ) (S B : ℚ) (policy : String),
        policy ∉ allowedPolicies →
        allocate P solver inventory dm ds fp tc S B policy
          = allocate P solver inventory dm ds fp tc S B "proportional") := by
  constructor
  · intro r
    unfold validateRequest numericRangesOK
    simp only [Bool.and_eq_true, decide_eq_true_eq, and_assoc]
  · intro P solver inventory dm ds fp tc S B policy hpol
    have h1 : ¬ policy = "proportional" := fun e => hpol (by rw [e]; decide)
    have h2 : ¬ policy = "optimized" := fun e => hpol (by rw [e]; decide)
    have h3 : ¬ policy = "equity_first" := fun e => hpol (by rw [e]; decide)
    have h4 : ¬ policy = "risk_averse" := fun e => hpol (by rw [e]; decide)
    simp [allocate, h1, h2, h3, h4]

/-! Run-level machinery: a property that holds of every step holds of every
recorded period. -/

lemma runFrom_forall (cfg : SimConfig) (solver : LPData → Option (List ℚ))
    (dD : ℚ → ℚ → ℚ → ℚ) (sD : ℚ → ℚ → ℚ) (data : SimData) (s : ℕ → ℚ)
    (Q : PeriodResult → Prop)
    (hstep : ∀ t I p, Q (simStep cfg solver dD sD data s t I p).1) :
    ∀ fuel t I p, ∀ pr ∈ runFrom cfg solver dD sD data s fuel t I p, Q pr := by
  intro fuel
  induction fuel with
  | zero => intro t I p pr hpr; simp [runFrom] at hpr
  | succ n ih =>
    intro t I p pr hpr
    simp only [runFrom] at hpr
    rcases List.mem_cons.mp hpr with rfl | hmem
    · exact hstep t I p
    · exact ih (t + 1) _ _ pr hmem

/-- Claim C7: in every recorded period, both the leakage vector and the
leakage cost component are the product of the fraud probability at the start
of the period (before the inspection-driven update, which is recorded
separately as fraud_prob_end) with the allocation. -/
theorem C7_leakage_preupdate (cfg : SimConfig) (solver : LPData → Option (List ℚ))
    (dD : ℚ → ℚ → ℚ → ℚ) (sD : ℚ → ℚ → ℚ) (data : SimData) (s : ℕ → ℚ) :
    ∀ pr ∈ (simRun cfg solver dD sD data s).periods,
      pr.leakage = List.zipWith (fun a b => a * b) pr.fraud_prob_start pr.allocation
      ∧ pr.cost_leakage
          = (List.zipWith (fun a b => a * b) pr.fraud_prob_start pr.allocation).sum := by
  intro pr hpr
  exact runFrom_forall cfg solver dD sD data s
    (fun pr => pr.leakage = List.zipWith (fun a b => a * b) pr.fraud_prob_start pr.allocation
      ∧ pr.cost_leakage
          = (List.zipWith (fun a b => a * b) pr.fraud_prob_start pr.allocation).sum)
    (fun t I p => ⟨rfl, rfl⟩) cfg.n_periods 0 _ _ pr hpr

/-! Allocation clipping and renormalisation invariants. -/

lemma clipRenorm_getD_bounds (P : OptParams) (dm : List ℚ) (S : ℚ) (x : List ℚ)
    (hr : 0 ≤ P.max_ratio) (hS : 0 ≤ S) :
    ∀ i, i < (clipRenorm P dm S x).length → i < dm.length →
      0 ≤ (clipRenorm P dm S x).getD i 0 ∧
        (clipRenorm P dm S x).getD i 0 ≤ P.max_ratio * max (dm.getD i 0) 1 := by
  intro i hi hd
  unfold clipRenorm at hi ⊢
  have hMnn : 0 ≤ P.max_ratio * max (dm.getD i 0) 1 :=
    mul_nonneg hr (le_trans zero_le_one (le_max_right _ _))
  have hxcb : ∀ hin : i < (List.zipWith (fun xi mx => clipQ xi 0 mx) x
      (dm.map (fun d => P.max_ratio * max d 1))).length,
      0 ≤ (List.zipWith (fun xi mx => clipQ xi 0 mx) x
          (dm.map (fun d => P.max_ratio * max d 1))).getD i 0 ∧
        (List.zipWith (fun xi mx => clipQ xi 0 mx) x
          (dm.map (fun d => P.max_ratio * max d 1))).getD i 0
          ≤ P.max_ratio * max (dm.getD i 0) 1 := by
    intro hin
    rw [List.length_zipWith, lt_min_iff] at hin
    rw [getD_zipWith_of_lt x _ i hin.1 hin.2 0 0 0,
      getD_map_of_lt (fun d => P.max_ratio * max d 1) dm i hd 0 0]
    exact clipQ_mem _ 0 _ hMnn
  by_cases hcond : S < (List.zipWith (fun xi mx => clipQ xi 0 mx) x
      (dm.map (fun d => P.max_ratio * max d 1))).sum ∧
      0 < (List.zipWith (fun xi mx => clipQ xi 0 mx) x
      (dm.map (fun d => P.max_ratio * max d 1))).sum
  · rw [if_pos hcond] at hi ⊢
    rw [List.length_map] at hi
    obtain ⟨h0, hM⟩ := hxcb hi
    rw [getD_map_of_lt _ _ i hi 0 0]
    constructor
    · exact div_nonneg (mul_nonneg h0 hS) (le_of_lt hcond.2)
    · have hfrac : (List.zipWith (fun xi mx => clipQ xi 0 mx) x
          (dm.map (fun d => P.max_ratio * max d 1))).getD i 0 * S /
          (List.zipWith (fun xi mx => clipQ xi 0 mx) x
          (dm.map (fun d => P.max_ratio * max d 1))).sum
          ≤ (List.zipWith (fun xi mx => clipQ xi 0 mx) x
          (dm.map (fun d => P.max_ratio * max d 1))).getD i 0 := by
        rw [mul_div_assoc]
        apply mul_le_of_le_one_right h0
        rw [div_le_one hcond.2]
        exact le_of_lt hcond.1
      exact le_trans hfrac hM
  · rw [if_neg hcond] at hi ⊢
    exact hxcb hi

lemma clipRenorm_sum_le (P : OptParams) (dm : List ℚ) (S : ℚ) (x : List ℚ)
    (hr : 0 ≤ P.max_ratio) (hS : 0 ≤ S) : (clipRenorm P dm S x).sum ≤ S := by
  unfold clipRenorm
  have hnn : ∀ v ∈ List.zipWith (fun xi mx => clipQ xi 0 mx) x
      (dm.map (fun d => P.max_ratio * max d 1)), 0 ≤ v := by
    refine mem_zipWith_prop (fun c => 0 ≤ c) x _ ?_
    intro a b hb
    rcases List.mem_map.mp hb with ⟨d, _, rfl⟩
    have hbnn : 0 ≤ P.max_ratio * max d 1 :=
      mul_nonneg hr (le_trans zero_le_one (le_max_right _ _))
    exact (clipQ_mem a 0 _ hbnn).1
  have hsum0 : 0 ≤ (List.zipWith (fun xi mx => clipQ xi 0 mx) x
      (dm.map (fun d => P.max_ratio * max d 1))).sum := List.sum_nonneg hnn
  by_cases hcond : S < (List.zipWith (fun xi mx => clipQ xi 0 mx) x
      (dm.map (fun d => P.max_ratio * max d 1))).sum ∧
      0 < (List.zipWith (fun xi mx => clipQ xi 0 mx) x
      (dm.map (fun d => P.max_ratio * max d 1))).sum
  · rw [if_pos hcond, sum_map_mul_div, mul_comm, mul_div_assoc,
      div_self (ne_of_gt hcond.2), mul_one]
  · rw [if_neg hcond]
    push_neg at hcond
    rcases le_or_lt (List.zipWith (fun xi mx => clipQ xi 0 mx) x
        (dm.map (fun d => P.max_ratio * max d 1))).sum S with hle | hlt
    · exact hle
    · have := hcond hlt
      linarith

/-! The per-step invariant. -/

lemma simStep_inv (cfg : SimConfig) (solver : LPData → Option (List ℚ))
    (dD : ℚ → ℚ → ℚ → ℚ) (sD : ℚ → ℚ → ℚ) (data : SimData) (s : ℕ → ℚ)
    (hr : 0 ≤ cfg.max_allocation_ratio) (hsup : ∀ t, 0 ≤ data.supply_schedule t) :
    ∀ t I p, periodInv cfg data (simStep cfg solver dD sD data s t I p).1 := by
  intro t I p
  unfold periodInv
  refine ⟨?_, ?_, ?_, ?_, ?_⟩
  · intro i hi hd
    exact clipRenorm_getD_bounds (optimizerOf cfg) (data.demand_mean t)
      (data.supply_schedule t) _ hr (hsup t) i hi hd
  · exact clipRenorm_sum_le (optimizerOf cfg) (data.demand_mean t)
      (data.supply_schedule t) _ hr (hsup t)
  · intro i hi
    have hlen := hi
    rw [show (simStep cfg solver dD sD data s t I p).1.fraud_prob_end
        = List.map (fun v => clipQ v (1 / 100) (99 / 100)) _ from rfl,
      List.length_map] at hlen
    rw [show (simStep cfg solver dD sD data s t I p).1.fraud_prob_end
        = List.map (fun v => clipQ v (1 / 100) (99 / 100)) _ from rfl,
      getD_map_of_lt (fun v => clipQ v (1 / 100) (99 / 100)) _ i hlen 0 0]
    exact clipQ_mem _ (1 / 100) (99 / 100) (by norm_num)
  · intro i hi
    have hlen := hi
    rw [show (simStep cfg solver dD sD data s t I p).1.inventory_end
        = List.zipWith (fun e d => max (e - d) 0) _ _ from rfl,
      List.length_zipWith, lt_min_iff] at hlen
    rw [show (simStep cfg solver dD sD data s t I p).1.inventory_end
        = List.zipWith (fun e d => max (e - d) 0) _ _ from rfl,
      getD_zipWith_of_lt _ _ i hlen.1 hlen.2 0 0 0]
    exact le_max_right _ _
  · intro i hi
    have hlen := hi
    rw [show (simStep cfg solver dD sD data s t I p).1.service_ratio
        = List.zipWith (fun d e => clipQ (if 0 < d then e / d else 1) 0 1) _ _ from rfl,
      List.length_zipWith, lt_min_iff] at hlen
    rw [show (simStep cfg solver dD sD data s t I p).1.service_ratio
        = List.zipWith (fun d e => clipQ (if 0 < d then e / d else 1) 0 1) _ _ from rfl,
      getD_zipWith_of_lt _ _ i hlen.1 hlen.2 0 0 0]
    exact clipQ_mem _ 0 1 zero_le_one

/-- Claim C2: every recorded period of every run satisfies the invariant:
allocations within [0, max_allocation_ratio times max(demand_mean, 1)], total
allocation within the period supply, updated fraud probabilities within
[0.01, 0.99], nonnegative inventory, service ratios within [0, 1]. The two
hypotheses record that the validated configuration has a nonnegative maximum
allocation ratio and that the supply schedule is nonnegative. -/
theorem C2_period_invariants (cfg : SimConfig) (solver : LPData → Option (List ℚ))
    (dD : ℚ → ℚ → ℚ → ℚ) (sD : ℚ → ℚ → ℚ) (data : SimData) (s : ℕ → ℚ)
    (hr : 0 ≤ cfg.max_allocation_ratio) (hsup : ∀ t, 0 ≤ data.supply_schedule t) :
    ∀ pr ∈ (simRun cfg solver dD sD data s).periods, periodInv cfg data pr := by
  intro pr hpr
  exact runFrom_forall cfg solver dD sD data s (periodInv cfg data)
    (simStep_inv cfg solver dD sD data s hr hsup) cfg.n_periods 0 _ _ pr hpr

/-- Claim C10, amended: the run-level total stockout is the sum over periods
of max(0, total realized demand minus total allocation) — a per-period
aggregate that ignores carried inventory and leakage — not the sum of the
per-district stockouts of the period transition. -/
theorem C10_amended (cfg : SimConfig) (solver : LPData → Option (List ℚ))
    (dD : ℚ → ℚ → ℚ → ℚ) (sD : ℚ → ℚ → ℚ) (data : SimData) (s : ℕ → ℚ) :
    (simRun cfg solver dD sD data s).total_stockout_kg
      = ((simRun cfg solver dD sD data s).periods.map
          (fun pr => max 0 (pr.demand_realized.sum - pr.allocation.sum))).sum := by
  have h : ∀ pr ∈ (simRun cfg solver dD sD data s).periods,
      pr.total_demand_kg = pr.demand_realized.sum
      ∧ pr.total_supply_kg = pr.allocation.sum :=
    fun pr hpr => runFrom_forall cfg solver dD sD data s
      (fun pr => pr.total_demand_kg = pr.demand_realized.sum
        ∧ pr.total_supply_kg = pr.allocation.sum)
      (fun t I p => ⟨rfl, rfl⟩) cfg.n_periods 0 _ _ pr hpr
  show ((simRun cfg solver dD sD data s).periods.map
      (fun pr => max 0 (pr.total_demand_kg - pr.total_supply_kg))).sum = _
  exact congrArg List.sum (List.map_congr_left
    (fun pr hpr => by rw [(h pr hpr).1, (h pr hpr).2]))

/-- The fixture run evaluated in full: one district, one period, proportional
policy, zero supply. -/
lemma wRun_eval : simRun wCfg wSolver wDraw wShock wData wS =
    { n_periods := 1
      periods := [wPr]
      total_discounted_cost := 175 / 2
      avg_service_level := 1 / 2
      avg_fraud_prob := 0
      total_leakage_kg := 0
      total_stockout_kg := 10
      cvar_cost := 175 / 2
      cost_series := [175 / 2] } := by
  have hceil : ⌈(19 : ℚ) / 20⌉ = 1 := by
    rw [Int.ceil_eq_iff]
    norm_num
  norm_num [simRun, runFrom, simStep, allocate, optimizerOf, policy_proportional,
    clipRenorm, clipQ, decide_inspections, roiList, greedyInspect, sortDesc, insertDesc,
    demandRealized, shockVec, listVar, listMean, eps9, wCfg, wData, wDraw, wShock,
    wSolver, wS, wPr, List.range_succ, List.insertionSort, List.orderedInsert,
    WithBot.coe_lt_coe, WithBot.bot_lt_coe, hceil]

/-- Claim C10, counterexample: on the fixture run the reported run-level total
stockout is 10 kg while the sum of the per-district stockouts of the period
transition is 5 kg, because the aggregate ignores the carried inventory. -/
theorem C10_counterexample :
    (simRun wCfg wSolver wDraw wShock wData wS).total_stockout_kg
      ≠ ((simRun wCfg wSolver wDraw wShock wData wS).periods.map
          (fun pr => (periodStockouts pr).sum)).sum := by
  rw [wRun_eval]
  norm_num [periodStockouts, wPr]

/-! Stream-consumption machinery for the determinism claim. -/

lemma demandRealized_congr (dD : ℚ → ℚ → ℚ → ℚ) (s₁ s₂ : ℕ → ℚ) (N t : ℕ)
    (D_hat D_std : List ℚ)
    (h : ∀ k, 2 * N * t ≤ k → k < 2 * N * t + N → s₁ k = s₂ k) :
    demandRealized dD s₁ N t D_hat D_std = demandRealized dD s₂ N t D_hat D_std := by
  unfold demandRealized
  apply zipWith_congr_right
  intro a k hk
  rw [List.mem_range] at hk
  rw [h (2 * N * t + k) (Nat.le_add_right _ _) (Nat.add_lt_add_left hk _)]

lemma shockVec_congr (sD : ℚ → ℚ → ℚ) (s₁ s₂ : ℕ → ℚ) (N t : ℕ) (scale : ℚ)
    (h : ∀ k, 2 * N * t + N ≤ k → k < 2 * N * t + N + N → s₁ k = s₂ k) :
    shockVec sD s₁ N t scale = shockVec sD s₂ N t scale := by
  unfold shockVec
  apply List.map_congr_left
  intro k hk
  rw [List.mem_range] at hk
  rw [h (2 * N * t + N + k) (Nat.le_add_right _ _) (Nat.add_lt_add_left hk _)]

lemma simStep_congr (cfg : SimConfig) (solver : LPData → Option (List ℚ))
    (dD : ℚ → ℚ → ℚ → ℚ) (sD : ℚ → ℚ → ℚ) (data : SimData) (s₁ s₂ : ℕ → ℚ)
    (t : ℕ) (I p : List ℚ)
    (h : ∀ k, 2 * data.initial_inventory.length * t ≤ k →
        k < 2 * data.initial_inventory.length * t + 2 * data.initial_inventory.length →
        s₁ k = s₂ k) :
    simStep cfg solver dD sD data s₁ t I p = simStep cfg solver dD sD data s₂ t I p := by
  have hd := demandRealized_congr dD s₁ s₂ data.initial_inventory.length t
    (data.demand_mean t) (data.demand_std t)
    (fun k h1 h2 => h k h1 (lt_of_lt_of_le h2 (by
      have : data.initial_inventory.length ≤ 2 * data.initial_inventory.length := by omega
      omega)))
  have hs := shockVec_congr sD s₁ s₂ data.initial_inventory.length t
    cfg.fraud_shock_scale
    (fun k h1 h2 => h k (le_trans (Nat.le_add_right _ _) h1) (by omega))
  simp only [simStep]
  rw [hd, hs]

lemma runFrom_congr (cfg : SimConfig) (solver : LPData → Option (List ℚ))
    (dD : ℚ → ℚ → ℚ → ℚ) (sD : ℚ → ℚ → ℚ) (data : SimData) (s₁ s₂ : ℕ → ℚ) :
    ∀ (fuel t : ℕ) (I p : List ℚ),
      (∀ k, 2 * data.initial_inventory.length * t ≤ k →
          k < 2 * data.initial_inventory.length * (t + fuel) → s₁ k = s₂ k) →
      runFrom cfg solver dD sD data s₁ fuel t I p
        = runFrom cfg solver dD sD data s₂ fuel t I p := by
  intro fuel
  induction fuel with
  | zero => intro t I p _; rfl
  | succ n ih =>
    intro t I p h
    have e : 2 * data.initial_inventory.length * (t + (n + 1))
        = 2 * data.initial_inventory.length * t + 2 * data.initial_inventory.length
          + 2 * data.initial_inventory.length * n := by ring
    have hstep := simStep_congr cfg solver dD sD data s₁ s₂ t I p
      (fun k h1 h2 => h k h1 (by rw [e]; omega))
    have e2 : 2 * data.initial_inventory.length * (t + 1 + n)
        = 2 * data.initial_inventory.length * (t + (n + 1)) := by ring
    have hmono : 2 * data.initial_inventory.length * t
        ≤ 2 * data.initial_inventory.length * (t + 1) :=
      Nat.mul_le_mul_left _ (by omega)
    have htail := ih (t + 1)
      (simStep cfg solver dD sD data s₂ t I p).2.1
      (simStep cfg solver dD sD data s₂ t I p).2.2
      (fun k h1 h2 => h k (le_trans hmono h1) (by rw [← e2]; exact h2))
    simp only [runFrom]
    rw [hstep, htail]

lemma runFrom_take_congr (cfg : SimConfig) (solver : LPData → Option (List ℚ))
    (dD : ℚ → ℚ → ℚ → ℚ) (sD : ℚ → ℚ → ℚ) (data : SimData) (s₁ s₂ : ℕ → ℚ) :
    ∀ (fuel t : ℕ) (I p : List ℚ) (n : ℕ),
      (∀ k, 2 * data.initial_inventory.length * t ≤ k →
          k < 2 * data.initial_inventory.length * (t + n) → s₁ k = s₂ k) →
      (runFrom cfg solver dD sD data s₁ fuel t I p).take n
        = (runFrom cfg solver dD sD data s₂ fuel t I p).take n := by
  intro fuel
  induction fuel with
  | zero => intro t I p n _; rfl
  | succ m ih =>
    intro t I p n h
    cases n with
    | zero => rfl
    | succ q =>
      have e : 2 * data.initial_inventory.length * (t + (q + 1))
          = 2 * data.initial_inventory.length * t + 2 * data.initial_inventory.length
            + 2 * data.initial_inventory.length * q := by ring
      have hstep := simStep_congr cfg solver dD sD data s₁ s₂ t I p
        (fun k h1 h2 => h k h1 (by rw [e]; omega))
      have e2 : 2 * data.initial_inventory.length * (t + 1 + q)
          = 2 * data.initial_inventory.length * (t + (q + 1)) := by ring
      have hmono : 2 * data.initial_inventory.length * t
          ≤ 2 * data.initial_inventory.length * (t + 1) :=
        Nat.mul_le_mul_left _ (by omega)
      have htail := ih (t + 1)
        (simStep cfg solver dD sD data s₂ t I p).2.1
        (simStep cfg solver dD sD data s₂ t I p).2.2 q
        (fun k h1 h2 => h k (le_trans hmono h1) (by rw [← e2]; exact h2))
      simp only [runFrom, List.take_succ_cons]
      rw [hstep, htail]

/-- Claim C1: the run is a deterministic function of the configuration and
the random stream, the stream is consumed strictly in period order (the first
t+1 period records depend only on the first 2N(t+1) draws), and within a
period the demand block (positions 2Nt to 2Nt+N-1) is consumed strictly
before the fraud-shock block; two runs over streams that agree on the
consumed prefix — in particular two runs from the same configuration and
seed — produce identical period-by-period results, including all vectors and
cost components. -/
theorem C1_determinism (cfg : SimConfig) (solver : LPData → Option (List ℚ))
    (dD : ℚ → ℚ → ℚ → ℚ) (sD : ℚ → ℚ → ℚ) (data : SimData) (s₁ s₂ : ℕ → ℚ) :
    ((∀ k, k < 2 * data.initial_inventory.length * cfg.n_periods → s₁ k = s₂ k) →
        simRun cfg solver dD sD data s₁ = simRun cfg solver dD sD data s₂)
    ∧ (∀ n, (∀ k, k < 2 * data.initial_inventory.length * n → s₁ k = s₂ k) →
        (simRun cfg solver dD sD data s₁).periods.take n
          = (simRun cfg solver dD sD data s₂).periods.take n)
    ∧ (∀ t I p, (∀ k, 2 * data.initial_inventory.length * t ≤ k →
          k < 2 * data.initial_inventory.length * t + data.initial_inventory.length →
          s₁ k = s₂ k) →
        (simStep cfg solver dD sD data s₁ t I p).1.demand_realized
          = (simStep cfg solver dD sD data s₂ t I p).1.demand_realized) := by
  refine ⟨?_, ?_, ?_⟩
  · intro h
    have hp := runFrom_congr cfg solver dD sD data s₁ s₂ cfg.n_periods 0
      data.initial_inventory data.initial_fraud_prob
      (fun k _ h2 => h k (by rw [Nat.zero_add] at h2; exact h2))
    simp only [simRun]
    rw [hp]
  · intro n h
    show (runFrom cfg solver dD sD data s₁ cfg.n_periods 0
        data.initial_inventory data.initial_fraud_prob).take n
      = (runFrom cfg solver dD sD data s₂ cfg.n_periods 0
        data.initial_inventory data.initial_fraud_prob).take n
    exact runFrom_take_congr cfg solver dD sD data s₁ s₂ cfg.n_periods 0
      data.initial_inventory data.initial_fraud_prob n
      (fun k _ h2 => h k (by rw [Nat.zero_add] at h2; exact h2))
  · intro t I p h
    show demandRealized dD s₁ data.initial_inventory.length t
        (data.demand_mean t) (data.demand_std t)
      = demandRealized dD s₂ data.initial_inventory.length t
        (data.demand_mean t) (data.demand_std t)
    exact demandRealized_congr dD s₁ s₂ data.initial_inventory.length t
      (data.demand_mean t) (data.demand_std t) h

/-- Witness for claim C1: two distinct streams agreeing on the two draws the
fixture run consumes yield identical results. -/
theorem C1_witness :
    (∀ k, k < 2 * wData.initial_inventory.length * wCfg.n_periods → wS k = wS2 k)
    ∧ simRun wCfg wSolver wDraw wShock wData wS
        = simRun wCfg wSolver wDraw wShock wData wS2 := by
  have h1 : ∀ k, k < 2 * wData.initial_inventory.length * wCfg.n_periods → wS k = wS2 k := by
    intro k hk
    simp only [wData, wCfg, List.length_singleton] at hk
    norm_num at hk
    simp [wS, wS2, hk]
  exact ⟨h1, (C1_determinism wCfg wSolver wDraw wShock wData wS wS2).1 h1⟩

/-- Witness for claim C2: the fixture run satisfies the hypotheses and hence
the invariant in every period. -/
theorem C2_witness :
    (0 ≤ wCfg.max_allocation_ratio ∧ ∀ t, 0 ≤ wData.supply_schedule t)
    ∧ ∀ pr ∈ (simRun wCfg wSolver wDraw wShock wData wS).periods,
        periodInv wCfg wData pr := by
  have h1 : 0 ≤ wCfg.max_allocation_ratio := by norm_num [wCfg]
  have h2 : ∀ t, 0 ≤ wData.supply_schedule t := fun _ => le_refl 0
  exact ⟨⟨h1, h2⟩, C2_period_invariants wCfg wSolver wDraw wShock wData wS h1 h2⟩

/-- Witness for claim C3: with the unavailable solver, the optimized policy
returns the proportional allocation on a concrete input. -/
theorem C3_witness :
    (∀ d, wSolver d = none)
    ∧ allocate wP wSolver [5] [10] [0] [0] [1] 0 0 "optimized"
        = allocate wP wSolver [5] [10] [0] [0] [1] 0 0 "proportional" :=
  ⟨fun _ => rfl, C3_solver_fallback wP wSolver [5] [10] [0] [0] [1] 0 0 "optimized"
    (fun _ => rfl) (Or.inl rfl)⟩

/-- Witness for claim C5: the default optimizer parameters have threshold
0.65, and with budget 9000 (below two inspections) the decision is exactly
[1, 0, 0]. -/
theorem C5_witness :
    wP.inspection_threshold = 13 / 20
    ∧ ((decide_inspections wP [9 / 10, 1 / 10, 1 / 10] [1, 1, 1] [1, 1, 1] 9000).getD 0 0 = 1
      ∧ (9000 < 2 * wP.inspection_cost →
          decide_inspections wP [9 / 10, 1 / 10, 1 / 10] [1, 1, 1] [1, 1, 1] 9000
            = [1, 0, 0])) :=
  ⟨rfl, C5_amended wP [1, 1, 1] [1, 1, 1] 9000 rfl⟩

/-- Witness for claim C6: the unrecognized policy string is simulated with the
proportional fallback. -/
theorem C6_witness :
    ("banana" ∉ allowedPolicies)
    ∧ allocate wP wSolver [5] [10] [0] [0] [1] 0 0 "banana"
        = allocate wP wSolver [5] [10] [0] [0] [1] 0 0 "proportional" :=
  ⟨by decide, C6_amended.2 wP wSolver [5] [10] [0] [0] [1] 0 0 "banana" (by decide)⟩

/-- Witness for claim C7: the fixture period record uses the pre-update fraud
probability for leakage and the leakage cost. -/
theorem C7_witness :
    wPr ∈ (simRun wCfg wSolver wDraw wShock wData wS).periods
    ∧ (wPr.leakage = List.zipWith (fun a b => a * b) wPr.fraud_prob_start wPr.allocation
      ∧ wPr.cost_leakage
          = (List.zipWith (fun a b => a * b) wPr.fraud_prob_start wPr.allocation).sum) := by
  have hmem : wPr ∈ (simRun wCfg wSolver wDraw wShock wData wS).periods := by
    rw [wRun_eval]
    exact List.mem_singleton_self wPr
  exact ⟨hmem, C7_leakage_preupdate wCfg wSolver wDraw wShock wData wS wPr hmem⟩

/-- Witness for claim C8: inventory 0, demand 10, supply 15 covers the
shortfall and the pre-redistribution allocation reaches the demand. -/
theorem C8_witness :
    ((shortfallList [0] [10]).sum ≤ 15)
    ∧ ∀ i, i < (equityPreAlloc [0] [10] 15).length → i < ([0] : List ℚ).length →
        i < ([10] : List ℚ).length →
        ([10] : List ℚ).getD i 0
          ≤ ([0] : List ℚ).getD i 0 + (equityPreAlloc [0] [10] 15).getD i 0 :=
  ⟨by norm_num [shortfallList], C8_equity_coverage [0] [10] 15 (by norm_num [shortfallList])⟩

/-- Witness for claim C9: Scenario A instantiated at districts 0 and 1. -/
theorem C9_witness :
    ((0 : ℕ) < ([100, 100, 100] : List ℚ).length)
    ∧ ((1 : ℕ) < ([100, 100, 100] : List ℚ).length)
    ∧ (0 < ([100, 100, 100] : List ℚ).sum)
    ∧ (0 < ([100, 100, 100] : List ℚ).getD 1 0)
    ∧ ((150 : ℚ) ≠ 0)
    ∧ ((policy_proportional [100, 100, 100] 150).getD 0 0
          / (policy_proportional [100, 100, 100] 150).getD 1 0
        = ([100, 100, 100] : List ℚ).getD 0 0 / ([100, 100, 100] : List ℚ).getD 1 0
      ∧ (policy_proportional [100, 100, 100] 150).sum = 150
      ∧ policy_proportional [100, 100, 100] 150 = [50, 50, 50]) :=
  ⟨by norm_num, by norm_num, by norm_num, by norm_num, by norm_num,
    C9_proportional_ratios [100, 100, 100] 150 0 1 (by norm_num) (by norm_num)
      (by norm_num) (by norm_num) (by norm_num)⟩

end PDS
